import Mathlib

/-!
Shallow embedding of `src/otto/tools/analytics/runway.py` (`calculate_runway`).

Modelling conventions:
* Monetary values (pandas float columns) are modelled as rationals (`ℚ`);
  Python's `round(x, 2)` becomes `round2` below.
* A pandas `Timestamp` is modelled as a calendar date `(year, month, day)`;
  the string-to-datetime conversion of a text column is value-transparent
  here (the stateful, in-place aspect of that conversion is modelled
  separately at the end of the definitions, for the frame claim).
* A `DataFrame` is a list of typed rows; `dfs.get(name, DataFrame())`
  means a missing table behaves exactly like an empty one, so the table
  mapping is a structure of row lists where `[]` covers both "missing"
  and "empty".
* `YYYY-MM` month columns that the code only ever compares as strings
  (`fiscal_month`) stay `String`, compared with the code-point order
  `strLe`; `planned_month` of the CapEx schedule, which the code parses
  with `pd.to_datetime(planned_month + '-01')`, is modelled as its parsed
  `(year, month)` pair with `YM.label` giving back its `YYYY-MM` form.
-/

namespace Otto

/-- A calendar date `(y, m, d)`, modelling a pandas `Timestamp`. -/
structure Date where
  y : ℕ
  m : ℕ
  d : ℕ
deriving DecidableEq, Repr

/-- Chronological (lexicographic) comparison of dates, as pandas compares
`Timestamp`s. -/
def Date.le (a b : Date) : Bool :=
  a.y < b.y || (a.y == b.y && (a.m < b.m || (a.m == b.m && a.d ≤ b.d)))

/-- Gregorian leap-year test. -/
def isLeap (y : ℕ) : Bool :=
  (y % 4 == 0 && y % 100 != 0) || (y % 400 == 0)

/-- Number of days of month `m` of year `y`. -/
def daysInMonth (y m : ℕ) : ℕ :=
  if m == 2 then (if isLeap y then 29 else 28)
  else if m == 4 || m == 6 || m == 9 || m == 11 then 30
  else 31

/-- `latest_date - relativedelta(months=3)`: go back three calendar months,
clamping the day to the length of the target month. -/
def subMonths3 (dt : Date) : Date :=
  let t := dt.y * 12 + (dt.m - 1) - 3
  let y := t / 12
  let m := t % 12 + 1
  ⟨y, m, min dt.d (daysInMonth y m)⟩

/-- Zero-padded two-digit rendering of a month number. -/
def pad2 (n : ℕ) : String :=
  if n < 10 then "0" ++ toString n else toString n

/-- `strftime('%Y-%m')`. -/
def ymLabel (y m : ℕ) : String :=
  toString y ++ "-" ++ pad2 m

/-- Code-point lexicographic comparison of character lists. -/
def charListLe : List Char → List Char → Bool
  | [], _ => true
  | _ :: _, [] => false
  | a :: as, b :: bs =>
      a.toNat < b.toNat || (a.toNat == b.toNat && charListLe as bs)

/-- The string `<=` used by the pandas boolean filters on `YYYY-MM`
columns. -/
def strLe (a b : String) : Bool :=
  charListLe a.data b.data

/-- A year-month pair, i.e. a parsed `YYYY-MM` label. -/
structure YM where
  y : ℕ
  m : ℕ
deriving DecidableEq, Repr

/-- `strftime('%Y-%m')` of a year-month pair. -/
def YM.label (a : YM) : String :=
  ymLabel a.y a.m

/-- The following calendar month (`+ relativedelta(months=1)` on a
first-of-month date). -/
def YM.next (a : YM) : YM :=
  if a.m == 12 then ⟨a.y + 1, 1⟩ else ⟨a.y, a.m + 1⟩

/-- The calendar day after `dt`. -/
def Date.nextDay (dt : Date) : Date :=
  if dt.d < daysInMonth dt.y dt.m then ⟨dt.y, dt.m, dt.d + 1⟩
  else if dt.m < 12 then ⟨dt.y, dt.m + 1, 1⟩
  else ⟨dt.y + 1, 1, 1⟩

/-- `dt + timedelta(days=k)`. -/
def addDays : Date → ℕ → Date
  | dt, 0 => dt
  | dt, k + 1 => addDays dt.nextDay k

/-- Row of `fact_cash_balance_daily`. -/
structure CashRow where
  date : Date
  ending_cash : ℚ
deriving DecidableEq, Repr

/-- Row of `fact_gl_actuals_monthly`. -/
structure GLRow where
  fiscal_month : String
  account_id : String
  amount_base : ℚ
deriving DecidableEq, Repr

/-- Row of `dim_account`. -/
structure AccountRow where
  account_id : String
  account_type : String
deriving DecidableEq, Repr

/-- Row of `fact_payroll_runs`. -/
structure PayrollRow where
  pay_date : Date
  gross_pay : ℚ
  taxes : ℚ
  benefits : ℚ
  contractor_cost : ℚ
deriving DecidableEq, Repr

/-- Row of `fact_it_cloud_costs` and of `fact_marketing_spend_detail`
(both expose `fiscal_month` and `amount`). -/
structure SpendRow where
  fiscal_month : String
  amount : ℚ
deriving DecidableEq, Repr

/-- Row of `fact_capex_schedule`; `planned_month` is the parsed `YYYY-MM`
label. -/
structure CapexRow where
  planned_month : YM
  planned_amount : ℚ
deriving DecidableEq, Repr

/-- The table mapping handed to `calculate_runway`; a missing table is the
empty list, matching `dfs.get(name, pd.DataFrame())`. -/
structure Tables where
  fact_cash_balance_daily : List CashRow
  fact_gl_actuals_monthly : List GLRow
  dim_account : List AccountRow
  fact_payroll_runs : List PayrollRow
  fact_it_cloud_costs : List SpendRow
  fact_marketing_spend_detail : List SpendRow
  fact_capex_schedule : List CapexRow
deriving DecidableEq, Repr

/-- `round(q, 2)`: round to two decimal places. -/
def round2 (q : ℚ) : ℚ :=
  (⌊q * 100 + 1 / 2⌋ : ℚ) / 100

/-- One record of the projection timeline. -/
structure ProjEntry where
  month : String
  cash : ℚ
  burn : ℚ
  capex : ℚ
  total_outflow : ℚ
deriving DecidableEq, Repr

/-- The `runway_months` field: a float that can be `+inf`. -/
inductive RunwayVal where
  | inf : RunwayVal
  | fin : ℚ → RunwayVal
deriving DecidableEq, Repr

/-- The result record of `calculate_runway`. -/
structure RunwayResult where
  current_cash : ℚ
  monthly_burn : ℚ
  runway_months : RunwayVal
  projection : List ProjEntry
deriving DecidableEq, Repr

/-- `cash_df['date'].max()` (line 32): maximum date of the cash table
(only used when the table is non-empty). -/
def latestDate (dfs : Tables) : Date :=
  (dfs.fact_cash_balance_daily.map (fun r => r.date)).foldl
    (fun a b => if Date.le a b then b else a) ⟨0, 1, 1⟩

/-- Line 34: sum of `ending_cash` over the rows carrying the latest
date. -/
def currentCash (dfs : Tables) : ℚ :=
  ((dfs.fact_cash_balance_daily.filter (fun r => r.date == latestDate dfs)).map
    (fun r => r.ending_cash)).sum

/-- The row filter `lo <= fiscal_month <= hi` applied to the GL table
(lines 52-54). -/
def glWindow (lo hi : String) (r : GLRow) : Bool :=
  strLe lo r.fiscal_month && strLe r.fiscal_month hi

/-- The row filter `three_months_ago <= pay_date <= latest_date`
(lines 67-70). -/
def payrollWindow (threeAgo latest : Date) (r : PayrollRow) : Bool :=
  Date.le threeAgo r.pay_date && Date.le r.pay_date latest

/-- The row filter `lo <= fiscal_month <= hi` applied to the cloud and
marketing tables (lines 82-84, 94-96). -/
def spendWindow (lo hi : String) (r : SpendRow) : Bool :=
  strLe lo r.fiscal_month && strLe r.fiscal_month hi

/-- Lines 46-59: the Opex component of the burn rate. -/
def opexComponent (gl : List GLRow) (dim : List AccountRow) (lo hi : String) : ℚ :=
  if gl.isEmpty || dim.isEmpty then 0
  else
    let opexAccounts := (dim.filter (fun a => a.account_type == "Opex")).map
      (fun a => a.account_id)
    let filtered := gl.filter (fun r =>
      glWindow lo hi r && opexAccounts.contains r.account_id)
    if filtered.isEmpty then 0
    else ((filtered.map (fun r => r.amount_base)).sum) / 3

/-- Lines 62-76: the payroll component of the burn rate (real date
comparison, not string). -/
def payrollComponent (pr : List PayrollRow) (threeAgo latest : Date) : ℚ :=
  if pr.isEmpty then 0
  else
    let filtered := pr.filter (payrollWindow threeAgo latest)
    if filtered.isEmpty then 0
    else
      ((filtered.map (fun r => r.gross_pay)).sum +
        (filtered.map (fun r => r.taxes)).sum +
        (filtered.map (fun r => r.benefits)).sum +
        (filtered.map (fun r => r.contractor_cost)).sum) / 3

/-- Lines 79-100: the cloud component (and, with the other table, the
marketing component) of the burn rate. -/
def spendComponent (rows : List SpendRow) (lo hi : String) : ℚ :=
  if rows.isEmpty then 0
  else
    let filtered := rows.filter (spendWindow lo hi)
    if filtered.isEmpty then 0
    else ((filtered.map (fun r => r.amount)).sum) / 3

/-- Lines 36-100: the trailing-3-month average monthly burn, as the sum of
the four components. -/
def monthlyBurn (dfs : Tables) : ℚ :=
  let latest := latestDate dfs
  let threeAgo := subMonths3 latest
  let lo := ymLabel threeAgo.y threeAgo.m
  let hi := ymLabel latest.y latest.m
  opexComponent dfs.fact_gl_actuals_monthly dfs.dim_account lo hi +
    payrollComponent dfs.fact_payroll_runs threeAgo latest +
    spendComponent dfs.fact_it_cloud_costs lo hi +
    spendComponent dfs.fact_marketing_spend_detail lo hi

/-- Lines 113-117: reinterpret `planned_month` as the first of the month,
add the delay in days, and take the resulting `YYYY-MM` bucket. -/
def shiftCapexRow (delay : ℤ) (r : CapexRow) : CapexRow :=
  let shifted := addDays ⟨r.planned_month.y, r.planned_month.m, 1⟩ delay.toNat
  { r with planned_month := ⟨shifted.y, shifted.m⟩ }

/-- Lines 111-117: the CapEx rows actually used, shifted only when the
table is non-empty and the delay is positive. -/
def capexRowsEffective (rows : List CapexRow) (delay : ℤ) : List CapexRow :=
  if (¬ rows.isEmpty) ∧ 0 < delay then rows.map (shiftCapexRow delay) else rows

/-- `capex_by_month[month] += amount` on a Python dict, modelled as an
association list. -/
def bump : List (String × ℚ) → String → ℚ → List (String × ℚ)
  | [], key, a => [(key, a)]
  | (k, v) :: rest, key, a =>
      if k == key then (k, v + a) :: rest else (k, v) :: bump rest key a

/-- Lines 127-134: fold the CapEx rows into the month-bucket mapping. -/
def buildCapexByMonth (rows : List CapexRow) : List (String × ℚ) :=
  rows.foldl (fun mp r => bump mp r.planned_month.label r.planned_amount) []

/-- The `capex_by_month` dict seen by the projection loop. -/
def capexByMonth (dfs : Tables) (delay : ℤ) : List (String × ℚ) :=
  buildCapexByMonth (capexRowsEffective dfs.fact_capex_schedule delay)

/-- `capex_by_month.get(month_str, 0.0)`. -/
def lookupQ : List (String × ℚ) → String → ℚ
  | [], _ => 0
  | (k, v) :: rest, key => if k == key then v else lookupQ rest key

/-- One loop step on the running cash:
`cash - (monthly_burn + capex_for_month)`. -/
def stepCash (burn : ℚ) (cb : List (String × ℚ)) (cm : YM) (cash : ℚ) : ℚ :=
  cash - (burn + lookupQ cb cm.label)

/-- Lines 145-151: the snapshot record appended for the month `cm`, given
the cash at the start of that month. -/
def mkEntry (burn : ℚ) (cb : List (String × ℚ)) (cm : YM) (cash : ℚ) : ProjEntry :=
  ⟨cm.label, round2 (stepCash burn cb cm cash), round2 burn,
    round2 (lookupQ cb cm.label), round2 (burn + lookupQ cb cm.label)⟩

/-- Lines 136-156: the forward simulation. Returns the projection list and
the final `runway_months` counter (`i + 1` of the last executed
iteration, `0` if the loop body never runs). -/
def simulate (burn : ℚ) (cb : List (String × ℚ)) :
    ℕ → YM → ℚ → List ProjEntry × ℕ
  | 0, _, _ => ([], 0)
  | fuel + 1, cm, cash =>
      if stepCash burn cb cm cash ≤ 0 then ([mkEntry burn cb cm cash], 1)
      else
        (mkEntry burn cb cm cash ::
            (simulate burn cb fuel cm.next (stepCash burn cb cm cash)).1,
          (simulate burn cb fuel cm.next (stepCash burn cb cm cash)).2 + 1)

/-- Line 123: the first projected month, the calendar month after the
latest cash-balance date. -/
def startMonth (dfs : Tables) : YM :=
  YM.next ⟨(latestDate dfs).y, (latestDate dfs).m⟩

/-- The full `calculate_runway` (lines 7-163). -/
def calculate_runway (dfs : Tables) (delay_capex_days : ℤ) : RunwayResult :=
  if dfs.fact_cash_balance_daily.isEmpty then
    ⟨0, 0, RunwayVal.fin 0, []⟩
  else
    let cc := currentCash dfs
    let burn := monthlyBurn dfs
    if burn = 0 then
      ⟨cc, 0, if 0 < cc then RunwayVal.inf else RunwayVal.fin 0, []⟩
    else
      let r := simulate burn (capexByMonth dfs delay_capex_days) 60
        (startMonth dfs) cc
      ⟨round2 cc, round2 burn, RunwayVal.fin (round2 (r.2 : ℚ)), r.1⟩

/-- The running (pre-rounding) cash after `k` simulated months, starting
from month `cm` with cash `cash`. -/
def cashSeq (burn : ℚ) (cb : List (String × ℚ)) : YM → ℚ → ℕ → ℚ
  | _, cash, 0 => cash
  | cm, cash, k + 1 => cashSeq burn cb cm.next (stepCash burn cb cm cash) k

/-- `k` months after `ym`. -/
def ymAdd : YM → ℕ → YM
  | ym, 0 => ym
  | ym, k + 1 => ymAdd ym.next k

/-- The pre-rounding cash trajectory of the projection actually run by
`calculate_runway dfs d` (index `k` = cash after `k` projected months). -/
def projCashSeq (dfs : Tables) (d : ℤ) : ℕ → ℚ :=
  cashSeq (monthlyBurn dfs) (capexByMonth dfs d) (startMonth dfs) (currentCash dfs)

/-- `dfs` with every cost source restricted to the rows its own window
filter keeps (the cash table, and hence the window itself, untouched). -/
def windowRestrict (dfs : Tables) : Tables :=
  let latest := latestDate dfs
  let threeAgo := subMonths3 latest
  let lo := ymLabel threeAgo.y threeAgo.m
  let hi := ymLabel latest.y latest.m
  { dfs with
    fact_gl_actuals_monthly := dfs.fact_gl_actuals_monthly.filter (glWindow lo hi)
    fact_payroll_runs := dfs.fact_payroll_runs.filter (payrollWindow threeAgo latest)
    fact_it_cloud_costs := dfs.fact_it_cloud_costs.filter (spendWindow lo hi)
    fact_marketing_spend_detail :=
      dfs.fact_marketing_spend_detail.filter (spendWindow lo hi) }

/-- `dt` minus `k` calendar months, as a year-month pair. -/
def subMonthsYM (dt : Date) (k : ℕ) : YM :=
  let t := dt.y * 12 + (dt.m - 1) - k
  ⟨t / 12, t % 12 + 1⟩

/-- Written from the claim's words, for comparison with the code: the
labels of "the 3 calendar months ending at" the date `dt` — the months of
`dt`, of `dt` minus one month and of `dt` minus two months. -/
def lastThreeMonthLabels (dt : Date) : List String :=
  [(subMonthsYM dt 2).label, (subMonthsYM dt 1).label, (subMonthsYM dt 0).label]

/-! ### State of the caller's date columns (lines 28-30 and 62-65)

`cash_df` and `payroll_df` are references to the caller's DataFrames and
the code assigns converted date columns back into them in place (unlike
`fact_capex_schedule`, which is `.copy()`-ed on line 111 before being
modified).  The cells of such a column are modelled as either still a
string (column dtype `object`) or a parsed datetime. -/

/-- A cell of a date column: a raw string (dtype `object`) or a parsed
datetime. -/
inductive DateCellM where
  | strc : String → DateCellM
  | dtc : Date → DateCellM
deriving DecidableEq, Repr

/-- `column.dtype == 'object'`: the column still holds strings. -/
def dtypeIsObject (col : List DateCellM) : Bool :=
  col.any fun c => match c with | .strc _ => true | .dtc _ => false

/-- Split a character list at every '-'. -/
def splitDash : List Char → List (List Char)
  | [] => [[]]
  | c :: rest =>
      let r := splitDash rest
      if c == '-' then [] :: r
      else
        match r with
        | [] => [[c]]
        | g :: gs => (c :: g) :: gs

/-- Read a decimal digit string. -/
def digitsToNat (l : List Char) : ℕ :=
  l.foldl (fun a c => a * 10 + (c.toNat - 48)) 0

/-- `pd.to_datetime` on a `YYYY-MM-DD` string. -/
def parseDate (s : String) : Date :=
  match (splitDash s.data).map digitsToNat with
  | [y, m, d] => ⟨y, m, d⟩
  | _ => ⟨0, 1, 1⟩

/-- `pd.to_datetime(col)`: parse every string cell. -/
def to_datetime_col (col : List DateCellM) : List DateCellM :=
  col.map fun c => match c with | .strc s => .dtc (parseDate s) | .dtc d => .dtc d

/-- Lines 29-30 (and identically 64-65): the state of the caller's date
column after `calculate_runway` returns — converted in place whenever its
dtype was `object`. -/
def dateColumnAfterCall (col : List DateCellM) : List DateCellM :=
  if dtypeIsObject col then to_datetime_col col else col

/-! ### Concrete inputs used by witnesses and counterexamples -/

/-- The all-empty table mapping (every table missing). -/
def emptyTables : Tables :=
  ⟨[], [], [], [], [], [], []⟩

/-- One cash row and no cost data at all: the burn rate is zero. -/
def Xb4 : Tables :=
  ⟨[⟨⟨2024, 1, 15⟩, 5⟩], [], [], [], [], [], []⟩

/-- Cash 300000 on 2024-03-31 and a single Opex actual of 3000, giving a
burn rate of 1000: depletion would take 300 months, past the horizon. -/
def Xa1 : Tables :=
  ⟨[⟨⟨2024, 3, 31⟩, 300000⟩], [⟨"2024-02", "A", 3000⟩], [⟨"A", "Opex"⟩],
    [], [], [], []⟩

/-- Cash 1000000 on 2024-03-31 and a burn rate of 1000: cash cannot
deplete within 60 months. -/
def Xa5 : Tables :=
  ⟨[⟨⟨2024, 3, 31⟩, 1000000⟩], [⟨"2024-02", "A", 3000⟩], [⟨"A", "Opex"⟩],
    [], [], [], []⟩

/-- Latest cash date 2024-03-31, and the only cost row anywhere is a GL
actual booked to fiscal month 2023-12 — outside the three calendar months
2024-01, 2024-02, 2024-03 ending at the latest date. -/
def Xa6 : Tables :=
  ⟨[⟨⟨2024, 3, 31⟩, 100⟩], [⟨"2023-12", "A", 3000⟩], [⟨"A", "Opex"⟩],
    [], [], [], []⟩

/-- Cash 0.009 and burn 0.005: after one month the remaining cash 0.004
is positive but rounds to 0.00 in the recorded snapshot. -/
def Xa10 : Tables :=
  ⟨[⟨⟨2024, 3, 31⟩, 9 / 1000⟩], [⟨"2024-02", "A", 3 / 200⟩], [⟨"A", "Opex"⟩],
    [], [], [], []⟩

/-- The spec's concrete scenario: one cash row `2024-03-31, 300000` and
Opex actuals of 30000 in each of 2024-01, 2024-02, 2024-03. -/
def Xc8 : Tables :=
  ⟨[⟨⟨2024, 3, 31⟩, 300000⟩],
    [⟨"2024-01", "A", 30000⟩, ⟨"2024-02", "A", 30000⟩, ⟨"2024-03", "A", 30000⟩],
    [⟨"A", "Opex"⟩], [], [], [], []⟩

/-- A cash-table date column whose dtype is `object` (one string cell). -/
def c7dates : List DateCellM :=
  [DateCellM.strc "2024-03-31"]

/-! ### General lemmas about the simulation loop -/

lemma simulate_succ (burn : ℚ) (cb : List (String × ℚ)) (fuel : ℕ) (cm : YM)
    (cash : ℚ) :
    simulate burn cb (fuel + 1) cm cash =
      if stepCash burn cb cm cash ≤ 0 then ([mkEntry burn cb cm cash], 1)
      else
        (mkEntry burn cb cm cash ::
            (simulate burn cb fuel cm.next (stepCash burn cb cm cash)).1,
          (simulate burn cb fuel cm.next (stepCash burn cb cm cash)).2 + 1) := rfl

lemma simulate_length_le (burn : ℚ) (cb : List (String × ℚ)) :
    ∀ (fuel : ℕ) (ym : YM) (cash : ℚ),
      (simulate burn cb fuel ym cash).1.length ≤ fuel := by
  intro fuel
  induction fuel with
  | zero => intro ym cash; simp [simulate]
  | succ n ih =>
      intro ym cash
      rw [simulate_succ]
      by_cases h : stepCash burn cb ym cash ≤ 0
      · simp [h]
      · simp only [if_neg h, List.length_cons]
        exact Nat.succ_le_succ (ih ym.next (stepCash burn cb ym cash))

lemma simulate_length_pos (burn : ℚ) (cb : List (String × ℚ)) (fuel : ℕ)
    (ym : YM) (cash : ℚ) (h : 0 < fuel) :
    0 < (simulate burn cb fuel ym cash).1.length := by
  obtain ⟨n, rfl⟩ : ∃ n, fuel = n + 1 := ⟨fuel - 1, by omega⟩
  rw [simulate_succ]
  by_cases hc : stepCash burn cb ym cash ≤ 0
  · simp [hc]
  · simp [hc]

lemma simulate_snd_eq_length (burn : ℚ) (cb : List (String × ℚ)) :
    ∀ (fuel : ℕ) (ym : YM) (cash : ℚ),
      (simulate burn cb fuel ym cash).2 =
        (simulate burn cb fuel ym cash).1.length := by
  intro fuel
  induction fuel with
  | zero => intro ym cash; rfl
  | succ n ih =>
      intro ym cash
      rw [simulate_succ]
      by_cases h : stepCash burn cb ym cash ≤ 0
      · simp [h]
      · simp only [if_neg h, List.length_cons]
        rw [ih]

lemma cashSeq_step (burn : ℚ) (cb : List (String × ℚ)) (cm : YM) (cash : ℚ)
    (k : ℕ) :
    cashSeq burn cb cm cash (k + 1) =
      cashSeq burn cb cm.next (stepCash burn cb cm cash) k := rfl

lemma simulate_getElem (burn : ℚ) (cb : List (String × ℚ)) :
    ∀ (fuel : ℕ) (ym : YM) (cash : ℚ) (k : ℕ),
      k < (simulate burn cb fuel ym cash).1.length →
      (simulate burn cb fuel ym cash).1[k]? =
        some (mkEntry burn cb (ymAdd ym k) (cashSeq burn cb ym cash k)) := by
  intro fuel
  induction fuel with
  | zero => intro ym cash k hk; simp [simulate] at hk
  | succ n ih =>
      intro ym cash k hk
      rw [simulate_succ] at hk ⊢
      by_cases h : stepCash burn cb ym cash ≤ 0
      · rw [if_pos h] at hk ⊢
        simp only [List.length_singleton] at hk
        obtain rfl : k = 0 := by omega
        simp [ymAdd, cashSeq]
      · rw [if_neg h] at hk ⊢
        cases k with
        | zero => simp [ymAdd, cashSeq]
        | succ j =>
            simp only [List.length_cons] at hk
            simp only [List.getElem?_cons_succ]
            exact ih ym.next (stepCash burn cb ym cash) j (by omega)

lemma simulate_pos (burn : ℚ) (cb : List (String × ℚ)) :
    ∀ (fuel : ℕ) (ym : YM) (cash : ℚ) (k : ℕ),
      k + 1 < (simulate burn cb fuel ym cash).1.length →
      0 < cashSeq burn cb ym cash (k + 1) := by
  intro fuel
  induction fuel with
  | zero => intro ym cash k hk; simp [simulate] at hk
  | succ n ih =>
      intro ym cash k hk
      rw [simulate_succ] at hk
      by_cases h : stepCash burn cb ym cash ≤ 0
      · rw [if_pos h] at hk
        simp at hk
      · rw [if_neg h] at hk
        simp only [List.length_cons] at hk
        cases k with
        | zero => exact lt_of_not_le h
        | succ j =>
            rw [cashSeq_step]
            exact ih ym.next (stepCash burn cb ym cash) j (by omega)

lemma simulate_last_le (burn : ℚ) (cb : List (String × ℚ)) :
    ∀ (fuel : ℕ) (ym : YM) (cash : ℚ),
      (simulate burn cb fuel ym cash).1.length < fuel →
      cashSeq burn cb ym cash (simulate burn cb fuel ym cash).1.length ≤ 0 := by
  intro fuel
  induction fuel with
  | zero => intro ym cash h; omega
  | succ n ih =>
      intro ym cash h
      rw [simulate_succ] at h ⊢
      by_cases hc : stepCash burn cb ym cash ≤ 0
      · rw [if_pos hc] at h ⊢
        simpa using hc
      · rw [if_neg hc] at h ⊢
        simp only [List.length_cons] at h ⊢
        rw [cashSeq_step]
        exact ih ym.next (stepCash burn cb ym cash) (by omega)

lemma simulate_full (burn : ℚ) (cb : List (String × ℚ)) :
    ∀ (fuel : ℕ) (ym : YM) (cash : ℚ),
      (∀ k, k < fuel → 0 < cashSeq burn cb ym cash (k + 1)) →
      (simulate burn cb fuel ym cash).1.length = fuel := by
  intro fuel
  induction fuel with
  | zero => intro ym cash _; simp [simulate]
  | succ n ih =>
      intro ym cash hpos
      rw [simulate_succ]
      have h0 : 0 < cashSeq burn cb ym cash 1 := hpos 0 (by omega)
      have h : ¬ stepCash burn cb ym cash ≤ 0 := by
        rw [cashSeq_step] at h0
        simpa [cashSeq] using not_le_of_lt h0
      rw [if_neg h]
      simp only [List.length_cons]
      rw [ih ym.next (stepCash burn cb ym cash) (fun k hk => by
        have := hpos (k + 1) (by omega)
        rwa [cashSeq_step] at this)]

lemma lookupQ_nil (key : String) : lookupQ [] key = 0 := rfl

lemma cashSeq_nil (burn : ℚ) :
    ∀ (k : ℕ) (ym : YM) (cash : ℚ),
      cashSeq burn [] ym cash k = cash - k * burn := by
  intro k
  induction k with
  | zero => intro ym cash; simp [cashSeq]
  | succ n ih =>
      intro ym cash
      rw [cashSeq_step, ih]
      simp only [stepCash, lookupQ_nil]
      push_cast
      ring

lemma simulate_nil_length (burn : ℚ) (hb : 0 < burn) (fuel : ℕ) (hf : 0 < fuel)
    (ym : YM) (cash : ℚ) :
    (simulate burn [] fuel ym cash).1.length =
      min fuel (max 1 (Int.toNat ⌈cash / burn⌉)) := by
  set L := (simulate burn [] fuel ym cash).1.length with hL
  set N := max 1 (Int.toNat ⌈cash / burn⌉) with hN
  have h1 : L ≤ fuel := simulate_length_le burn [] fuel ym cash
  have h2 : 0 < L := simulate_length_pos burn [] fuel ym cash hf
  have hLN : L ≤ N := by
    by_contra hcon
    push_neg at hcon
    have hk : (N - 1) + 1 < L := by omega
    have hpos := simulate_pos burn [] fuel ym cash (N - 1) hk
    rw [cashSeq_nil] at hpos
    rw [show N - 1 + 1 = N from by omega] at hpos
    have hlt : (N : ℚ) < cash / burn := by
      rw [lt_div_iff₀ hb]
      linarith
    have hceil : (N : ℤ) < ⌈cash / burn⌉ := by
      rwa [Int.lt_ceil]
    have : N < Int.toNat ⌈cash / burn⌉ := by omega
    omega
  have hmin : min fuel N ≤ L := by
    rcases lt_or_eq_of_le h1 with hlt | heq
    · have hle := simulate_last_le burn [] fuel ym cash hlt
      rw [cashSeq_nil] at hle
      have hdiv : cash / burn ≤ (L : ℚ) := by
        rw [div_le_iff₀ hb]
        linarith
      have hceil : ⌈cash / burn⌉ ≤ (L : ℤ) := Int.ceil_le.mpr (by exact_mod_cast hdiv)
      have : Int.toNat ⌈cash / burn⌉ ≤ L := by omega
      have : N ≤ L := by omega
      omega
    · omega
  omega

lemma cashSeq_succ_eq (burn : ℚ) (cb : List (String × ℚ)) :
    ∀ (k : ℕ) (ym : YM) (cash : ℚ),
      cashSeq burn cb ym cash (k + 1) =
        stepCash burn cb (ymAdd ym k) (cashSeq burn cb ym cash k) := by
  intro k
  induction k with
  | zero => intro ym cash; rfl
  | succ n ih =>
      intro ym cash
      rw [cashSeq_step, ih ym.next (stepCash burn cb ym cash)]
      rfl

lemma round2_nonneg (q : ℚ) (h : 0 ≤ q) : 0 ≤ round2 q := by
  unfold round2
  apply div_nonneg _ (by norm_num)
  have h2 : (0 : ℤ) ≤ ⌊q * 100 + 1 / 2⌋ := by
    apply Int.le_floor.mpr
    push_cast
    nlinarith
  exact_mod_cast h2

lemma round2_natCast (n : ℕ) : round2 ((n : ℕ) : ℚ) = (n : ℚ) := by
  unfold round2
  have hfl : ⌊(n : ℚ) * 100 + 1 / 2⌋ = (n : ℤ) * 100 := by
    rw [Int.floor_eq_iff]
    constructor
    · push_cast
      linarith
    · push_cast
      linarith
  rw [hfl]
  push_cast
  rw [mul_div_assoc]
  norm_num

lemma round2_nonpos (q : ℚ) (h : q ≤ 0) : round2 q ≤ 0 := by
  unfold round2
  apply div_nonpos_of_nonpos_of_nonneg _ (by norm_num)
  have h2 : ⌊q * 100 + 1 / 2⌋ ≤ 0 := by
    have h3 : ⌊q * 100 + 1 / 2⌋ < 1 := by
      apply Int.floor_lt.mpr
      push_cast
      nlinarith
    omega
  exact_mod_cast h2

/-! ### Lemmas about the branches of `calculate_runway` -/

lemma calculate_runway_empty (dfs : Tables) (d : ℤ)
    (h : dfs.fact_cash_balance_daily = []) :
    calculate_runway dfs d = ⟨0, 0, RunwayVal.fin 0, []⟩ := by
  simp [calculate_runway, h]

lemma calculate_runway_zero_burn (dfs : Tables) (d : ℤ)
    (hne : dfs.fact_cash_balance_daily ≠ []) (hb : monthlyBurn dfs = 0) :
    calculate_runway dfs d =
      ⟨currentCash dfs, 0,
        if 0 < currentCash dfs then RunwayVal.inf else RunwayVal.fin 0, []⟩ := by
  simp [calculate_runway, hne, hb]

lemma calculate_runway_sim (dfs : Tables) (d : ℤ)
    (hne : dfs.fact_cash_balance_daily ≠ []) (hb : monthlyBurn dfs ≠ 0) :
    calculate_runway dfs d =
      ⟨round2 (currentCash dfs), round2 (monthlyBurn dfs),
        RunwayVal.fin
          (round2 (((simulate (monthlyBurn dfs) (capexByMonth dfs d) 60 (startMonth dfs)
              (currentCash dfs)).2 : ℕ) : ℚ)),
        (simulate (monthlyBurn dfs) (capexByMonth dfs d) 60 (startMonth dfs)
          (currentCash dfs)).1⟩ := by
  simp [calculate_runway, hne, hb]

lemma capexByMonth_nil (dfs : Tables) (d : ℤ)
    (h : dfs.fact_capex_schedule = []) : capexByMonth dfs d = [] := by
  simp [capexByMonth, capexRowsEffective, h, buildCapexByMonth]

/-! ### Lemmas about the CapEx bucket map -/

lemma bump_snd_sum (mp : List (String × ℚ)) (key : String) (a : ℚ) :
    ((bump mp key a).map (fun p => p.2)).sum = ((mp.map (fun p => p.2)).sum) + a := by
  induction mp with
  | nil => simp [bump]
  | cons hd tl ih =>
      obtain ⟨k, v⟩ := hd
      by_cases h : (k == key) = true
      · simp [bump, h]
        ring
      · simp [bump, h, ih]
        ring

lemma foldl_bump_sum (rows : List CapexRow) :
    ∀ (mp : List (String × ℚ)),
      (((rows.foldl (fun mp r => bump mp r.planned_month.label r.planned_amount)
          mp).map (fun p => p.2)).sum) =
        ((mp.map (fun p => p.2)).sum) +
          ((rows.map (fun r => r.planned_amount)).sum) := by
  induction rows with
  | nil => intro mp; simp
  | cons hd tl ih =>
      intro mp
      simp only [List.foldl_cons, List.map_cons, List.sum_cons]
      rw [ih, bump_snd_sum]
      ring

lemma capexRowsEffective_amounts (rows : List CapexRow) (d : ℤ) :
    (capexRowsEffective rows d).map (fun r => r.planned_amount) =
      rows.map (fun r => r.planned_amount) := by
  unfold capexRowsEffective
  by_cases h : (¬ rows.isEmpty) ∧ 0 < d
  · rw [if_pos h, List.map_map]
    apply List.map_congr_left
    intro r _
    simp [shiftCapexRow]
  · rw [if_neg h]

/-! ### Window-restriction lemmas -/

lemma filter_filter_absorb {α : Type} (w p : α → Bool)
    (h : ∀ x, p x = true → w x = true) :
    ∀ l : List α, (l.filter w).filter p = l.filter p := by
  intro l
  induction l with
  | nil => rfl
  | cons x xs ih =>
      by_cases hw : w x = true
      · simp only [List.filter_cons, hw, if_true]
        by_cases hp : p x = true
        · simp [hp, ih]
        · simp [hp, ih]
      · have hp : ¬ p x = true := fun hpx => hw (h x hpx)
        simp [List.filter_cons, hw, hp, ih]

lemma filter_eq_nil_of_subpred {α : Type} (w p : α → Bool)
    (h : ∀ x, p x = true → w x = true) (l : List α)
    (hw : l.filter w = []) : l.filter p = [] := by
  rw [← filter_filter_absorb w p h l, hw]
  rfl

lemma payrollComponent_window (pr : List PayrollRow) (threeAgo latest : Date) :
    payrollComponent (pr.filter (payrollWindow threeAgo latest)) threeAgo latest =
      payrollComponent pr threeAgo latest := by
  have habs := filter_filter_absorb (payrollWindow threeAgo latest)
    (payrollWindow threeAgo latest) (fun x hx => hx) pr
  simp only [payrollComponent]
  rw [habs]
  by_cases hpr : pr.isEmpty = true
  · have h0 : pr = [] := by simpa [List.isEmpty_iff] using hpr
    subst h0
    simp
  · have hpr' : pr.isEmpty = false := by rwa [Bool.not_eq_true] at hpr
    by_cases hfw : (pr.filter (payrollWindow threeAgo latest)).isEmpty = true
    · simp [hfw, hpr']
    · have hfw' : (pr.filter (payrollWindow threeAgo latest)).isEmpty = false := by
        rwa [Bool.not_eq_true] at hfw
      simp [hfw', hpr']

lemma spendComponent_window (rows : List SpendRow) (lo hi : String) :
    spendComponent (rows.filter (spendWindow lo hi)) lo hi =
      spendComponent rows lo hi := by
  have habs := filter_filter_absorb (spendWindow lo hi) (spendWindow lo hi)
    (fun x hx => hx) rows
  simp only [spendComponent]
  rw [habs]
  by_cases hr : rows.isEmpty = true
  · have h0 : rows = [] := by simpa [List.isEmpty_iff] using hr
    subst h0
    simp
  · have hr' : rows.isEmpty = false := by rwa [Bool.not_eq_true] at hr
    by_cases hfw : (rows.filter (spendWindow lo hi)).isEmpty = true
    · simp [hfw, hr']
    · have hfw' : (rows.filter (spendWindow lo hi)).isEmpty = false := by
        rwa [Bool.not_eq_true] at hfw
      simp [hfw', hr']

lemma opexComponent_window (gl : List GLRow) (dim : List AccountRow) (lo hi : String) :
    opexComponent (gl.filter (glWindow lo hi)) dim lo hi =
      opexComponent gl dim lo hi := by
  have hsub : ∀ x : GLRow,
      (glWindow lo hi x &&
        ((dim.filter (fun a => a.account_type == "Opex")).map
          (fun a => a.account_id)).contains x.account_id) = true →
      glWindow lo hi x = true := by
    intro x hx
    simp only [Bool.and_eq_true] at hx
    exact hx.1
  have habs := filter_filter_absorb (glWindow lo hi)
    (fun r => glWindow lo hi r &&
      ((dim.filter (fun a => a.account_type == "Opex")).map
        (fun a => a.account_id)).contains r.account_id)
    hsub gl
  simp only [opexComponent]
  rw [habs]
  by_cases hdim : dim.isEmpty = true
  · simp [hdim]
  · have hdim' : dim.isEmpty = false := by rwa [Bool.not_eq_true] at hdim
    by_cases hgl : gl.isEmpty = true
    · have h0 : gl = [] := by simpa [List.isEmpty_iff] using hgl
      subst h0
      simp
    · have hgl' : gl.isEmpty = false := by rwa [Bool.not_eq_true] at hgl
      by_cases hfw : (gl.filter (glWindow lo hi)).isEmpty = true
      · have hnil : gl.filter (fun r => glWindow lo hi r &&
            ((dim.filter (fun a => a.account_type == "Opex")).map
              (fun a => a.account_id)).contains r.account_id) = [] := by
          apply filter_eq_nil_of_subpred (glWindow lo hi) _ hsub gl
          simpa [List.isEmpty_iff] using hfw
        rw [hnil]
        simp [hfw, hgl', hdim']
      · have hfw' : (gl.filter (glWindow lo hi)).isEmpty = false := by
          rwa [Bool.not_eq_true] at hfw
        simp [hfw', hgl', hdim']

/-- C6 (amended): each of the four burn components counts only rows lying
in its own source's code window — the closed `YYYY-MM` label range from
the month of `latest_date` minus 3 calendar months to the month of
`latest_date` (four month labels), and for payroll the date interval
`[latest_date - 3 months, latest_date]`: dropping every row outside those
windows leaves `monthly_burn` unchanged. -/
theorem burn_window_amended (dfs : Tables) :
    monthlyBurn (windowRestrict dfs) = monthlyBurn dfs := by
  have h1 : latestDate (windowRestrict dfs) = latestDate dfs := rfl
  have h2 : (windowRestrict dfs).fact_gl_actuals_monthly =
      dfs.fact_gl_actuals_monthly.filter
        (glWindow
          (ymLabel (subMonths3 (latestDate dfs)).y (subMonths3 (latestDate dfs)).m)
          (ymLabel (latestDate dfs).y (latestDate dfs).m)) := rfl
  have h3 : (windowRestrict dfs).fact_payroll_runs =
      dfs.fact_payroll_runs.filter
        (payrollWindow (subMonths3 (latestDate dfs)) (latestDate dfs)) := rfl
  have h4 : (windowRestrict dfs).fact_it_cloud_costs =
      dfs.fact_it_cloud_costs.filter
        (spendWindow
          (ymLabel (subMonths3 (latestDate dfs)).y (subMonths3 (latestDate dfs)).m)
          (ymLabel (latestDate dfs).y (latestDate dfs).m)) := rfl
  have h5 : (windowRestrict dfs).fact_marketing_spend_detail =
      dfs.fact_marketing_spend_detail.filter
        (spendWindow
          (ymLabel (subMonths3 (latestDate dfs)).y (subMonths3 (latestDate dfs)).m)
          (ymLabel (latestDate dfs).y (latestDate dfs).m)) := rfl
  have h6 : (windowRestrict dfs).dim_account = dfs.dim_account := rfl
  simp only [monthlyBurn, h1, h2, h3, h4, h5, h6]
  rw [opexComponent_window, payrollComponent_window, spendComponent_window,
    spendComponent_window]

/-- C6 (counterexample): with the latest cash date 2024-03-31, the only
cost row anywhere is a GL actual in fiscal month 2023-12 — outside the 3
calendar months (2024-01, 2024-02, 2024-03) ending at the latest date —
yet it contributes 1000 to `monthly_burn`, so the claim that no row from
outside those 3 calendar months contributes is false. -/
theorem burn_window_counterexample :
    monthlyBurn Xa6 = 1000 ∧
      (∀ r ∈ Xa6.fact_gl_actuals_monthly,
        r.fiscal_month ∉ lastThreeMonthLabels (latestDate Xa6)) ∧
      Xa6.fact_payroll_runs = [] ∧ Xa6.fact_it_cloud_costs = [] ∧
      Xa6.fact_marketing_spend_detail = [] := by
  refine ⟨?_, by decide, rfl, rfl, rfl⟩
  rw [show monthlyBurn Xa6 = ((3000 : ℚ) + 0) / 3 + 0 + 0 + 0 from rfl]
  norm_num

/-- C3: whenever `fact_cash_balance_daily` is missing or empty,
`calculate_runway` returns exactly
`{current_cash := 0, monthly_burn := 0, runway_months := 0, projection := []}`
and raises no error. -/
theorem empty_cash_table_result (dfs : Tables) (d : ℤ)
    (h : dfs.fact_cash_balance_daily = []) :
    calculate_runway dfs d =
      { current_cash := 0, monthly_burn := 0, runway_months := RunwayVal.fin 0,
        projection := [] } :=
  calculate_runway_empty dfs d h

/-- C3 (witness): the all-empty table mapping produces the zero result. -/
theorem empty_cash_table_result_witness :
    calculate_runway emptyTables 7 =
      { current_cash := 0, monthly_burn := 0, runway_months := RunwayVal.fin 0,
        projection := [] } :=
  empty_cash_table_result emptyTables 7 rfl

/-- C4: with a non-empty cash table and a computed `monthly_burn` of
exactly 0, `calculate_runway` returns the computed `current_cash`, burn 0,
`runway_months = +inf` when `current_cash > 0` and `0.0` otherwise, and an
empty projection. -/
theorem zero_burn_result (dfs : Tables) (d : ℤ)
    (hne : dfs.fact_cash_balance_daily ≠ []) (hb : monthlyBurn dfs = 0) :
    calculate_runway dfs d =
      { current_cash := currentCash dfs, monthly_burn := 0,
        runway_months :=
          if 0 < currentCash dfs then RunwayVal.inf else RunwayVal.fin 0,
        projection := [] } :=
  calculate_runway_zero_burn dfs d hne hb

/-- C4 (witness): one cash row of 5 and no cost data give burn 0 and an
infinite runway. -/
theorem zero_burn_result_witness :
    calculate_runway Xb4 3 =
      { current_cash := 5, monthly_burn := 0, runway_months := RunwayVal.inf,
        projection := [] } := by
  have h := zero_burn_result Xb4 3 (by decide)
    (by rw [show monthlyBurn Xb4 = (0 : ℚ) + 0 + 0 + 0 from rfl]; norm_num)
  rw [h, show currentCash Xb4 = (5 : ℚ) + 0 from rfl]
  norm_num

/-- C9: for every `delay_capex_days ≤ 0` (all negative values included),
`calculate_runway` returns exactly the same result as with delay 0: the
CapEx shift is skipped and the buckets are used unshifted. -/
theorem nonpositive_delay_noop (dfs : Tables) (d : ℤ) (hd : d ≤ 0) :
    calculate_runway dfs d = calculate_runway dfs 0 := by
  have hcb : capexByMonth dfs d = capexByMonth dfs 0 := by
    unfold capexByMonth capexRowsEffective
    rw [if_neg (fun h => absurd h.2 (by omega)),
      if_neg (fun h => absurd h.2 (by omega))]
  unfold calculate_runway
  rw [hcb]

/-- C9 (witness): delay -7 gives the same result as delay 0 on the
concrete scenario tables. -/
theorem nonpositive_delay_noop_witness :
    calculate_runway Xc8 (-7) = calculate_runway Xc8 0 :=
  nonpositive_delay_noop Xc8 (-7) (by norm_num)

/-- C2: for every CapEx schedule and every delay, the sum of the values of
the capex-by-month bucket mapping equals the sum of `planned_amount` over
the original `fact_capex_schedule` rows — the delay moves buckets, never
amounts. -/
theorem capex_delay_preserves_total (dfs : Tables) (d : ℤ) :
    ((capexByMonth dfs d).map (fun p => p.2)).sum =
      (dfs.fact_capex_schedule.map (fun r => r.planned_amount)).sum := by
  unfold capexByMonth buildCapexByMonth
  rw [foldl_bump_sum, capexRowsEffective_amounts]
  simp

/-- C7 (code bug): `calculate_runway` is not free of side effects — when
the caller's `fact_cash_balance_daily.date` column holds strings (dtype
`object`), lines 29-30 assign the parsed datetime column back into the
caller's DataFrame, so after the call the input table differs from what
was passed in (the same happens to `fact_payroll_runs.pay_date` on lines
64-65). -/
theorem cash_dates_mutated :
    dateColumnAfterCall c7dates ≠ c7dates ∧
      dateColumnAfterCall c7dates = [DateCellM.dtc ⟨2024, 3, 31⟩] :=
  ⟨by decide, by decide⟩

/-- C1 (amended): with a non-empty cash table, zero CapEx and a positive
computed `monthly_burn`, every projected month's pre-rounding cash is
exactly `monthly_burn` below the previous one (entry `k` records
`round2 (current_cash - (k+1)·burn)`), the loop stops at the first month
where depletion makes cash ≤ 0 when that happens within the horizon, and
`runway_months = min 60 (max 1 ⌈current_cash / monthly_burn⌉)` — the
60-month cap (and the at-least-one-iteration floor) applying instead of a
bare ceiling. -/
theorem runway_ceiling_capped (dfs : Tables) (d : ℤ)
    (hne : dfs.fact_cash_balance_daily ≠ [])
    (hcap : dfs.fact_capex_schedule = [])
    (hb : 0 < monthlyBurn dfs) :
    (∀ k (hk : k < (calculate_runway dfs d).projection.length),
        ((calculate_runway dfs d).projection.get ⟨k, hk⟩).cash =
          round2 (currentCash dfs - (k + 1) * monthlyBurn dfs)) ∧
      (calculate_runway dfs d).projection.length =
        min 60 (max 1 (Int.toNat ⌈currentCash dfs / monthlyBurn dfs⌉)) ∧
      (calculate_runway dfs d).runway_months =
        RunwayVal.fin ((calculate_runway dfs d).projection.length : ℚ) ∧
      (∀ k, k + 1 < (calculate_runway dfs d).projection.length →
          0 < currentCash dfs - ((k : ℚ) + 1) * monthlyBurn dfs) ∧
      ((calculate_runway dfs d).projection.length < 60 →
          currentCash dfs -
              ((calculate_runway dfs d).projection.length : ℚ) * monthlyBurn dfs ≤ 0) := by
  have hb' : monthlyBurn dfs ≠ 0 := ne_of_gt hb
  rw [calculate_runway_sim dfs d hne hb', capexByMonth_nil dfs d hcap]
  dsimp only
  refine ⟨?_, ?_, ?_, ?_, ?_⟩
  · intro k hk
    have hget := simulate_getElem (monthlyBurn dfs) [] 60 (startMonth dfs)
      (currentCash dfs) k hk
    have h2 := (List.getElem?_eq_getElem hk).symm.trans hget
    rw [Option.some.injEq] at h2
    rw [List.get_eq_getElem, h2]
    simp only [mkEntry]
    rw [show stepCash (monthlyBurn dfs) [] (ymAdd (startMonth dfs) k)
        (cashSeq (monthlyBurn dfs) [] (startMonth dfs) (currentCash dfs) k) =
        cashSeq (monthlyBurn dfs) [] (startMonth dfs) (currentCash dfs) k -
          (monthlyBurn dfs + 0) from rfl]
    rw [cashSeq_nil]
    congr 1
    ring
  · exact simulate_nil_length (monthlyBurn dfs) hb 60 (by omega) _ _
  · rw [simulate_snd_eq_length, round2_natCast]
  · intro k hkk
    have hpos := simulate_pos (monthlyBurn dfs) [] 60 (startMonth dfs)
      (currentCash dfs) k hkk
    rw [cashSeq_nil] at hpos
    push_cast at hpos
    exact hpos
  · intro hlt
    have hle := simulate_last_le (monthlyBurn dfs) [] 60 (startMonth dfs)
      (currentCash dfs) hlt
    rw [cashSeq_nil] at hle
    exact hle

/-- C1 (witness): on the concrete scenario tables — burn 30000, cash
300000, no CapEx — the amended statement holds. -/
theorem runway_ceiling_capped_witness :
    (∀ k (hk : k < (calculate_runway Xc8 0).projection.length),
        ((calculate_runway Xc8 0).projection.get ⟨k, hk⟩).cash =
          round2 (currentCash Xc8 - (k + 1) * monthlyBurn Xc8)) ∧
      (calculate_runway Xc8 0).projection.length =
        min 60 (max 1 (Int.toNat ⌈currentCash Xc8 / monthlyBurn Xc8⌉)) ∧
      (calculate_runway Xc8 0).runway_months =
        RunwayVal.fin ((calculate_runway Xc8 0).projection.length : ℚ) ∧
      (∀ k, k + 1 < (calculate_runway Xc8 0).projection.length →
          0 < currentCash Xc8 - ((k : ℚ) + 1) * monthlyBurn Xc8) ∧
      ((calculate_runway Xc8 0).projection.length < 60 →
          currentCash Xc8 -
              ((calculate_runway Xc8 0).projection.length : ℚ) * monthlyBurn Xc8 ≤ 0) :=
  runway_ceiling_capped Xc8 0 (by decide) rfl
    (by rw [show monthlyBurn Xc8 = ((30000 : ℚ) + (30000 + (30000 + 0))) / 3 + 0 + 0 + 0
          from rfl]
        norm_num)

/-- C1 (counterexample): cash 300000, constant burn 1000, no CapEx:
`ceil(current_cash / monthly_burn) = 300`, but the code returns
`runway_months = 60` because the loop caps at 60 iterations, so
`runway_months = ceil(current_cash / monthly_burn)` is false. -/
theorem runway_ceiling_counterexample :
    (calculate_runway Xa1 0).runway_months = RunwayVal.fin 60 ∧
      Int.toNat ⌈currentCash Xa1 / monthlyBurn Xa1⌉ = 300 ∧
      (calculate_runway Xa1 0).runway_months ≠
        RunwayVal.fin ((Int.toNat ⌈currentCash Xa1 / monthlyBurn Xa1⌉ : ℕ) : ℚ) ∧
      Xa1.fact_capex_schedule = [] ∧ 0 < monthlyBurn Xa1 := by
  have hb : monthlyBurn Xa1 = 1000 := by
    rw [show monthlyBurn Xa1 = ((3000 : ℚ) + 0) / 3 + 0 + 0 + 0 from rfl]
    norm_num
  have hc : currentCash Xa1 = 300000 := by
    rw [show currentCash Xa1 = (300000 : ℚ) + 0 from rfl]
    norm_num
  have hb' : monthlyBurn Xa1 ≠ 0 := by rw [hb]; norm_num
  have hceil : Int.toNat ⌈currentCash Xa1 / monthlyBurn Xa1⌉ = 300 := by
    rw [hb, hc, show ⌈(300000 : ℚ) / 1000⌉ = 300 from by norm_num]
    rfl
  have hlen : (simulate (monthlyBurn Xa1) (capexByMonth Xa1 0) 60 (startMonth Xa1)
      (currentCash Xa1)).1.length = 60 := by
    rw [capexByMonth_nil Xa1 0 rfl,
      simulate_nil_length (monthlyBurn Xa1) (by rw [hb]; norm_num) 60 (by omega),
      hb, hc, show ⌈(300000 : ℚ) / 1000⌉ = 300 from by norm_num]
    rfl
  have hrw : (calculate_runway Xa1 0).runway_months = RunwayVal.fin 60 := by
    rw [calculate_runway_sim Xa1 0 (by decide) hb']
    dsimp only
    rw [simulate_snd_eq_length, hlen, round2_natCast]
    norm_num
  refine ⟨hrw, hceil, ?_, rfl, by rw [hb]; norm_num⟩
  rw [hrw, hceil]
  simp only [RunwayVal.fin.injEq, ne_eq]
  norm_num

/-- C5: the projection never exceeds 60 entries; and whenever the branch
with a simulation is reached and the simulated cash stays positive through
all 60 months, the projection has exactly 60 entries and
`runway_months = 60`. -/
theorem projection_capped (dfs : Tables) (d : ℤ) :
    (calculate_runway dfs d).projection.length ≤ 60 ∧
      (dfs.fact_cash_balance_daily ≠ [] → monthlyBurn dfs ≠ 0 →
        (∀ k, k < 60 → 0 < projCashSeq dfs d (k + 1)) →
        (calculate_runway dfs d).projection.length = 60 ∧
          (calculate_runway dfs d).runway_months = RunwayVal.fin 60) := by
  constructor
  · by_cases h1 : dfs.fact_cash_balance_daily = []
    · rw [calculate_runway_empty dfs d h1]
      simp
    · by_cases h2 : monthlyBurn dfs = 0
      · rw [calculate_runway_zero_burn dfs d h1 h2]
        simp
      · rw [calculate_runway_sim dfs d h1 h2]
        exact simulate_length_le _ _ 60 _ _
  · intro h1 h2 h3
    rw [calculate_runway_sim dfs d h1 h2]
    dsimp only
    have hfull := simulate_full (monthlyBurn dfs) (capexByMonth dfs d) 60
      (startMonth dfs) (currentCash dfs) h3
    refine ⟨hfull, ?_⟩
    rw [simulate_snd_eq_length, hfull, round2_natCast]
    norm_num

/-- C5 (witness): cash 1000000 against burn 1000 cannot deplete within 60
months, so the projection has exactly 60 entries and the runway is 60. -/
theorem projection_capped_witness :
    (calculate_runway Xa5 0).projection.length = 60 ∧
      (calculate_runway Xa5 0).runway_months = RunwayVal.fin 60 := by
  have hb : monthlyBurn Xa5 = 1000 := by
    rw [show monthlyBurn Xa5 = ((3000 : ℚ) + 0) / 3 + 0 + 0 + 0 from rfl]
    norm_num
  have hc : currentCash Xa5 = 1000000 := by
    rw [show currentCash Xa5 = (1000000 : ℚ) + 0 from rfl]
    norm_num
  refine (projection_capped Xa5 0).2 (by decide) (by rw [hb]; norm_num) ?_
  intro k hk
  show 0 < cashSeq (monthlyBurn Xa5) (capexByMonth Xa5 0) (startMonth Xa5)
    (currentCash Xa5) (k + 1)
  rw [capexByMonth_nil Xa5 0 rfl, cashSeq_nil, hb, hc]
  have hk' : ((k : ℚ) + 1) ≤ 60 := by
    have h59 : (k : ℚ) ≤ 59 := by exact_mod_cast Nat.lt_succ_iff.mp hk
    linarith
  push_cast
  nlinarith [hk']

/-- C10 (amended): whenever the simulation branch is reached,
`runway_months` equals the projection length; every entry before the last
has positive pre-rounding simulated cash (hence a recorded cash ≥ 0,
which rounding can display as 0.00); and unless the projection has 60
entries, the last month's pre-rounding cash — and its recorded, rounded
cash — is ≤ 0. -/
theorem projection_invariants (dfs : Tables) (d : ℤ)
    (hne : dfs.fact_cash_balance_daily ≠ []) (hb : monthlyBurn dfs ≠ 0) :
    (calculate_runway dfs d).runway_months =
        RunwayVal.fin ((calculate_runway dfs d).projection.length : ℚ) ∧
      (∀ k (hk : k + 1 < (calculate_runway dfs d).projection.length),
          0 < projCashSeq dfs d (k + 1) ∧
            0 ≤ ((calculate_runway dfs d).projection.get
              ⟨k, Nat.lt_of_succ_lt hk⟩).cash) ∧
      ((calculate_runway dfs d).projection.length < 60 →
          projCashSeq dfs d (calculate_runway dfs d).projection.length ≤ 0 ∧
            ∀ e, (calculate_runway dfs d).projection.getLast? = some e →
              e.cash ≤ 0) := by
  rw [calculate_runway_sim dfs d hne hb]
  dsimp only
  refine ⟨?_, ?_, ?_⟩
  · rw [simulate_snd_eq_length, round2_natCast]
  · intro k hk
    have hpos := simulate_pos (monthlyBurn dfs) (capexByMonth dfs d) 60
      (startMonth dfs) (currentCash dfs) k hk
    refine ⟨hpos, ?_⟩
    have hk' := Nat.lt_of_succ_lt hk
    have hget := simulate_getElem (monthlyBurn dfs) (capexByMonth dfs d) 60
      (startMonth dfs) (currentCash dfs) k hk'
    have h2 := (List.getElem?_eq_getElem hk').symm.trans hget
    rw [Option.some.injEq] at h2
    rw [List.get_eq_getElem, h2]
    simp only [mkEntry]
    rw [← cashSeq_succ_eq]
    exact round2_nonneg _ (le_of_lt hpos)
  · intro hlt
    have hle := simulate_last_le (monthlyBurn dfs) (capexByMonth dfs d) 60
      (startMonth dfs) (currentCash dfs) hlt
    refine ⟨hle, ?_⟩
    intro e he
    have hlp : 0 < (simulate (monthlyBurn dfs) (capexByMonth dfs d) 60
        (startMonth dfs) (currentCash dfs)).1.length :=
      simulate_length_pos _ _ 60 _ _ (by omega)
    rw [List.getLast?_eq_getElem? _] at he
    have hget := simulate_getElem (monthlyBurn dfs) (capexByMonth dfs d) 60
      (startMonth dfs) (currentCash dfs)
      ((simulate (monthlyBurn dfs) (capexByMonth dfs d) 60
        (startMonth dfs) (currentCash dfs)).1.length - 1) (by omega)
    rw [he] at hget
    rw [Option.some.injEq] at hget
    rw [hget]
    simp only [mkEntry]
    rw [← cashSeq_succ_eq]
    rw [show (simulate (monthlyBurn dfs) (capexByMonth dfs d) 60
        (startMonth dfs) (currentCash dfs)).1.length - 1 + 1 =
        (simulate (monthlyBurn dfs) (capexByMonth dfs d) 60
          (startMonth dfs) (currentCash dfs)).1.length from by omega]
    exact round2_nonpos _ hle

/-- C10 (witness): the invariants hold on the concrete scenario tables. -/
theorem projection_invariants_witness :
    (calculate_runway Xc8 0).runway_months =
        RunwayVal.fin ((calculate_runway Xc8 0).projection.length : ℚ) ∧
      (∀ k (hk : k + 1 < (calculate_runway Xc8 0).projection.length),
          0 < projCashSeq Xc8 0 (k + 1) ∧
            0 ≤ ((calculate_runway Xc8 0).projection.get
              ⟨k, Nat.lt_of_succ_lt hk⟩).cash) ∧
      ((calculate_runway Xc8 0).projection.length < 60 →
          projCashSeq Xc8 0 (calculate_runway Xc8 0).projection.length ≤ 0 ∧
            ∀ e, (calculate_runway Xc8 0).projection.getLast? = some e →
              e.cash ≤ 0) :=
  projection_invariants Xc8 0 (by decide)
    (by rw [show monthlyBurn Xc8 = ((30000 : ℚ) + (30000 + (30000 + 0))) / 3 + 0 + 0 + 0
          from rfl]
        norm_num)

/-- C10 (counterexample): with cash 0.009 and burn 0.005 the projection
has two entries, and the first — which is not the last — records
`cash = 0.00` (the positive pre-rounding cash 0.004 rounds down to zero),
so "every projection entry before the last has cash > 0" fails on the
recorded values. -/
theorem projection_positive_counterexample :
    (calculate_runway Xa10 0).projection.length = 2 ∧
      ((calculate_runway Xa10 0).projection.head?.map (fun e => e.cash)) =
        some 0 ∧
      monthlyBurn Xa10 ≠ 0 ∧ Xa10.fact_cash_balance_daily ≠ [] := by
  have hb : monthlyBurn Xa10 = 1 / 200 := by
    rw [show monthlyBurn Xa10 = ((3 / 200 : ℚ) + 0) / 3 + 0 + 0 + 0 from rfl]
    norm_num
  have hc : currentCash Xa10 = 9 / 1000 := by
    rw [show currentCash Xa10 = (9 / 1000 : ℚ) + 0 from rfl]
    norm_num
  have hb' : monthlyBurn Xa10 ≠ 0 := by rw [hb]; norm_num
  have hcb : capexByMonth Xa10 0 = [] := capexByMonth_nil Xa10 0 rfl
  have hceil : ⌈(9 / 1000 : ℚ) / (1 / 200)⌉ = 2 := by
    rw [show (9 / 1000 : ℚ) / (1 / 200) = 9 / 5 from by norm_num, Int.ceil_eq_iff]
    constructor
    · norm_num
    · norm_num
  have hlen : (simulate (monthlyBurn Xa10) [] 60 (startMonth Xa10)
      (currentCash Xa10)).1.length = 2 := by
    rw [simulate_nil_length (monthlyBurn Xa10) (by rw [hb]; norm_num) 60 (by omega),
      hb, hc, hceil]
    rfl
  refine ⟨?_, ?_, hb', by decide⟩
  · rw [calculate_runway_sim Xa10 0 (by decide) hb', hcb]
    dsimp only
    exact hlen
  · rw [calculate_runway_sim Xa10 0 (by decide) hb', hcb]
    dsimp only
    have hget := simulate_getElem (monthlyBurn Xa10) [] 60 (startMonth Xa10)
      (currentCash Xa10) 0 (by rw [hlen]; omega)
    rw [List.head?_eq_getElem?, hget]
    simp only [Option.map_some', Option.some.injEq]
    simp only [mkEntry]
    rw [show stepCash (monthlyBurn Xa10) [] (ymAdd (startMonth Xa10) 0)
        (cashSeq (monthlyBurn Xa10) [] (startMonth Xa10) (currentCash Xa10) 0) =
        currentCash Xa10 - (monthlyBurn Xa10 + 0) from rfl]
    rw [hb, hc]
    rw [show (9 / 1000 : ℚ) - (1 / 200 + 0) = 1 / 250 from by norm_num]
    rw [round2, show (1 / 250 : ℚ) * 100 + 1 / 2 = 9 / 10 from by norm_num]
    norm_num

/-- C8: on the spec's concrete scenario (one cash row `2024-03-31,
300000`; Opex actuals totalling 90000 over Jan-Mar 2024; nothing else)
`calculate_runway` with delay 0 returns `current_cash = 300000`,
`monthly_burn = 30000`, a projection starting at month 2024-04 with cash
270000, burn 30000, capex 0 and total outflow 30000, stopping after month
10 with `runway_months = 10` and final cash 0. -/
theorem concrete_scenario_result :
    (calculate_runway Xc8 0).current_cash = 300000 ∧
      (calculate_runway Xc8 0).monthly_burn = 30000 ∧
      (calculate_runway Xc8 0).runway_months = RunwayVal.fin 10 ∧
      (calculate_runway Xc8 0).projection.length = 10 ∧
      (calculate_runway Xc8 0).projection.head? =
        some { month := "2024-04", cash := 270000, burn := 30000, capex := 0,
               total_outflow := 30000 } ∧
      ((calculate_runway Xc8 0).projection.getLast?.map (fun e => e.cash)) =
        some 0 := by
  have hb : monthlyBurn Xc8 = 30000 := by
    rw [show monthlyBurn Xc8 = ((30000 : ℚ) + (30000 + (30000 + 0))) / 3 + 0 + 0 + 0
      from rfl]
    norm_num
  have hc : currentCash Xc8 = 300000 := by
    rw [show currentCash Xc8 = (300000 : ℚ) + 0 from rfl]
    norm_num
  have hb' : monthlyBurn Xc8 ≠ 0 := by rw [hb]; norm_num
  have hcb : capexByMonth Xc8 0 = [] := capexByMonth_nil Xc8 0 rfl
  have hlen : (simulate (monthlyBurn Xc8) [] 60 (startMonth Xc8)
      (currentCash Xc8)).1.length = 10 := by
    rw [simulate_nil_length (monthlyBurn Xc8) (by rw [hb]; norm_num) 60 (by omega),
      hb, hc, show ⌈(300000 : ℚ) / 30000⌉ = 10 from by norm_num]
    rfl
  refine ⟨?_, ?_, ?_, ?_, ?_, ?_⟩
  · rw [calculate_runway_sim Xc8 0 (by decide) hb']
    dsimp only
    rw [hc, round2]
    norm_num
  · rw [calculate_runway_sim Xc8 0 (by decide) hb']
    dsimp only
    rw [hb, round2]
    norm_num
  · rw [calculate_runway_sim Xc8 0 (by decide) hb', hcb]
    dsimp only
    rw [simulate_snd_eq_length, hlen, round2_natCast]
    norm_num
  · rw [calculate_runway_sim Xc8 0 (by decide) hb', hcb]
    dsimp only
    exact hlen
  · rw [calculate_runway_sim Xc8 0 (by decide) hb', hcb]
    dsimp only
    have hget := simulate_getElem (monthlyBurn Xc8) [] 60 (startMonth Xc8)
      (currentCash Xc8) 0 (by rw [hlen]; omega)
    rw [List.head?_eq_getElem?, hget]
    simp only [Option.some.injEq, mkEntry, ProjEntry.mk.injEq]
    refine ⟨by decide, ?_, ?_, ?_, ?_⟩
    · rw [show stepCash (monthlyBurn Xc8) [] (ymAdd (startMonth Xc8) 0)
          (cashSeq (monthlyBurn Xc8) [] (startMonth Xc8) (currentCash Xc8) 0) =
          currentCash Xc8 - (monthlyBurn Xc8 + 0) from rfl]
      rw [hb, hc, round2]
      norm_num
    · rw [hb, round2]
      norm_num
    · rw [show lookupQ ([] : List (String × ℚ)) (ymAdd (startMonth Xc8) 0).label =
          (0 : ℚ) from rfl]
      rw [round2]
      norm_num
    · rw [show lookupQ ([] : List (String × ℚ)) (ymAdd (startMonth Xc8) 0).label =
          (0 : ℚ) from rfl]
      rw [hb, round2]
      norm_num
  · rw [calculate_runway_sim Xc8 0 (by decide) hb', hcb]
    dsimp only
    rw [List.getLast?_eq_getElem? _, hlen]
    have hget := simulate_getElem (monthlyBurn Xc8) [] 60 (startMonth Xc8)
      (currentCash Xc8) 9 (by rw [hlen]; omega)
    rw [show (10 : ℕ) - 1 = 9 from rfl, hget]
    simp only [Option.map_some', Option.some.injEq, mkEntry]
    rw [show stepCash (monthlyBurn Xc8) [] (ymAdd (startMonth Xc8) 9)
        (cashSeq (monthlyBurn Xc8) [] (startMonth Xc8) (currentCash Xc8) 9) =
        cashSeq (monthlyBurn Xc8) [] (startMonth Xc8) (currentCash Xc8) 9 -
          (monthlyBurn Xc8 + 0) from rfl]
    rw [cashSeq_nil, hb, hc]
    rw [show (300000 : ℚ) - (9 : ℕ) * 30000 - (30000 + 0) = 0 from by push_cast; ring]
    rw [round2]
    norm_num

end Otto
